import Mathlib

/-!
Shallow embedding of the graph-state store of `src/src/store/useFlowStore.ts`
(a Zustand store for a React Flow playground).

Modelling conventions:
* The store's mutable state `{ nodes, edges, selectedNode }` becomes the
  record `FlowState`; every store action becomes a pure function on it.
* Nondeterministic runtime inputs (`Date.now()`, `Math.random()`) become
  explicit parameters of the actions that read them.
* `localStorage` becomes an explicit `Option` field of a `World` record;
  the stored text is modelled by its parse result (`Stored`), since the
  store only ever observes the text through `JSON.parse`.
* Positions are rationals: the coordinates the store computes are sums and
  products of small integers and a `Math.random ()` sample, all exact.
* JS template literals over numbers use the standard decimal rendering,
  embedded here as `decStr`.
* The deferred `setTimeout(... saveToLocalStorage ..., 100)` debounce only
  re-runs `saveToLocalStorage`; the claims treated here are about the
  synchronous state transition, so the timers are not modelled.
-/

/-- Decimal digit as a character: `decChar d` is the ASCII digit for `d < 10`.
Embeds the JS number-to-string conversion digit-wise. -/
def decChar (d : Nat) : Char := Char.ofNat (48 + d)

/-- Decimal rendering of a natural number, as JS `${n}` produces for an
integer: most significant digit first, `"0"` for zero. -/
def decStr (n : Nat) : String :=
  if n = 0 then "0" else String.mk (((Nat.digits 10 n).map decChar).reverse)

/-- `NodeData` of `useFlowStore.ts`: `{ label: string; description?: string;
color?: string }`. -/
structure NodeData where
  label : String
  description : Option String := none
  color : Option String := none
deriving DecidableEq, Repr

/-- `Partial<NodeData>`: each key may be absent or present; a present key
overwrites on spread-merge. -/
structure NodeDataPatch where
  label : Option String := none
  description : Option (Option String) := none
  color : Option (Option String) := none
deriving DecidableEq, Repr

/-- The JS spread `{ ...d, ...p }` on `NodeData`: keys present in the patch
overwrite, absent keys are retained. -/
def NodeData.merge (d : NodeData) (p : NodeDataPatch) : NodeData :=
  { label := p.label.getD d.label
    description := p.description.getD d.description
    color := p.color.getD d.color }

/-- A 2-D position `{ x, y }`; coordinates are exact rationals. -/
structure Pos where
  x : ℚ
  y : ℚ
deriving DecidableEq

/-- A React Flow node as the store builds and mutates it: id, position,
data payload, type tag, and the `hidden` flag (`undefined` in JS until the
first toggle; observationally a boolean that starts `false`). -/
structure Node where
  id : String
  position : Pos
  data : NodeData
  type : String := "default"
  hidden : Bool := false
deriving DecidableEq

/-- A React Flow edge as the store holds it: id, endpoint ids, and the
`animated` flag (absent in JS meaning `false`). -/
structure Edge where
  id : String
  source : String
  target : String
  animated : Bool := false
deriving DecidableEq

/-- The store state: the two ordered collections plus the detached
selection snapshot. -/
structure FlowState where
  nodes : List Node
  edges : List Edge
  selectedNode : Option Node := none
deriving DecidableEq

/-- `initialNodes` of `useFlowStore.ts`. -/
def initialNodes : List Node :=
  [ { id := "1", position := { x := 250, y := 100 },
      data := { label := "Start Node", description := some "This is the starting point" },
      type := "default" },
    { id := "2", position := { x := 250, y := 250 },
      data := { label := "Process Node", description := some "Processing happens here" },
      type := "default" } ]

/-- `initialEdges` of `useFlowStore.ts`. -/
def initialEdges : List Edge :=
  [ { id := "e1-2", source := "1", target := "2", animated := true } ]

/-- The state the store is created with: `nodes: initialNodes, edges:
initialEdges, selectedNode: null`. -/
def initialState : FlowState :=
  { nodes := initialNodes, edges := initialEdges, selectedNode := none }

/-- `addNode(position?)`: appends a node with id `node-${Date.now()}`,
label `Node ${nodes.length + 1}` and description `New node`. The wall
clock sample and the (possibly defaulted, random) position are parameters. -/
def addNode (st : FlowState) (now : Nat) (position : Pos) : FlowState :=
  let newNode : Node :=
    { id := "node-" ++ decStr now
      position := position
      data := { label := "Node " ++ decStr (st.nodes.length + 1),
                description := some "New node" }
      type := "default" }
  { st with nodes := st.nodes ++ [newNode] }

/-- `updateNode(nodeId, data)`: spread-merges the patch into every matching
node's `data`, then, when the selection snapshot carries that id, spread-merges
the patch into the snapshot's own `data` as well. -/
def updateNode (st : FlowState) (nodeId : String) (p : NodeDataPatch) : FlowState :=
  let nodes' := st.nodes.map fun n =>
    if n.id = nodeId then { n with data := n.data.merge p } else n
  let sel' := match st.selectedNode with
    | some s => if s.id = nodeId then some { s with data := s.data.merge p } else some s
    | none => none
  { st with nodes := nodes', selectedNode := sel' }

/-- `deleteNode(nodeId)`: filters the node out of `nodes`, filters incident
edges out of `edges`, and nulls the selection when its id matches. -/
def deleteNode (st : FlowState) (nodeId : String) : FlowState :=
  { nodes := st.nodes.filter fun n => n.id != nodeId
    edges := st.edges.filter fun e => e.source != nodeId && e.target != nodeId
    selectedNode := match st.selectedNode with
      | some s => if s.id = nodeId then none else some s
      | none => none }

/-- `setSelectedNode(node)`: replaces the snapshot, no validation. -/
def setSelectedNode (st : FlowState) (node : Option Node) : FlowState :=
  { st with selectedNode := node }

/-- `toggleNodeVisibility(nodeId)`: maps over `nodes` flipping `hidden` on
the matching node, touching nothing else. -/
def toggleNodeVisibility (st : FlowState) (nodeId : String) : FlowState :=
  { st with nodes := st.nodes.map fun n =>
      if n.id = nodeId then { n with hidden := !n.hidden } else n }

/-- `clearFlow()`: empties both collections and the selection. -/
def clearFlow (_st : FlowState) : FlowState :=
  { nodes := [], edges := [], selectedNode := none }

/-- `Math.ceil(Math.sqrt(count))` on a natural count: the least `g` with
`count ≤ g * g`, written with `Nat.sqrt`. -/
def gridSize (count : Nat) : Nat :=
  if Nat.sqrt count * Nat.sqrt count = count then Nat.sqrt count else Nat.sqrt count + 1

/-- The id `bulk-node-${t}-${i}` built in `generateBulkNodes`'s loop body
(`t` is that iteration's `Date.now()` sample). -/
def mkBulkId (t i : Nat) : String :=
  "bulk-node-" ++ decStr t ++ "-" ++ decStr i

/-- One node pushed by iteration `i` of `generateBulkNodes`: grid cell
`(i % g, i / g)` scaled by spacing 200 plus the iteration's two
`Math.random() * 50` jitter samples `jx i`, `jy i`; `tfn i` is the
iteration's `Date.now()` sample. -/
def bulkNode (tfn : Nat → Nat) (jx jy : Nat → ℚ) (g : Nat) (i : Nat) : Node :=
  { id := mkBulkId (tfn i) i
    position := { x := (i % g : Nat) * 200 + jx i, y := (i / g : Nat) * 200 + jy i }
    data := { label := "Node " ++ decStr (i + 1)
              description := some ("Bulk generated node " ++ decStr (i + 1)) }
    type := "default" }

/-- `generateBulkNodes(count)`: appends the `count` generated nodes to the
existing collection. -/
def generateBulkNodes (st : FlowState) (count : Nat) (tfn : Nat → Nat)
    (jx jy : Nat → ℚ) : FlowState :=
  { st with
    nodes := st.nodes ++ (List.range count).map (bulkNode tfn jx jy (gridSize count)) }

/-- The parse result of a text held in `localStorage` under the store's key:
the store observes the text only through `JSON.parse`, so a stored text is
either unparseable or the `{ nodes, edges }` document `saveToLocalStorage`
writes. -/
inductive Stored where
  | malformed
  | wf (nodes : List Node) (edges : List Edge)
deriving DecidableEq

/-- The store state together with the browser's `localStorage` slot for the
fixed key `reactflow-workflow` (`none` = nothing stored). -/
structure World where
  flow : FlowState
  storage : Option Stored := none
deriving DecidableEq

/-- `saveToLocalStorage()`: serializes `{ nodes, edges }` and writes it under
the fixed key (storage quota failures are outside this model). -/
def saveToLocalStorage (w : World) : World :=
  { w with storage := some (.wf w.flow.nodes w.flow.edges) }

/-- `loadFromLocalStorage()`: with nothing stored, does nothing; with an
unparseable stored text, `JSON.parse` throws and the catch leaves state
untouched; otherwise replaces `nodes`/`edges` and nulls the selection. -/
def loadFromLocalStorage (w : World) : World :=
  match w.storage with
  | none => w
  | some .malformed => w
  | some (.wf n e) => { w with flow := { nodes := n, edges := e, selectedNode := none } }

/-- The document `exportToJSON()` serializes: `{ nodes, edges, version: "1.0",
exportedAt }`, with the clock reading a parameter. -/
structure ExportDoc where
  nodes : List Node
  edges : List Edge
  version : String
  exportedAt : String
deriving DecidableEq

/-- `exportToJSON()` up to serialization: the document whose pretty-printed
JSON the action returns. -/
def exportToJSON (st : FlowState) (exportedAt : String) : ExportDoc :=
  { nodes := st.nodes, edges := st.edges, version := "1.0", exportedAt := exportedAt }

/-- The parse result of a text handed to `importFromJSON`: either
`JSON.parse` throws, or it yields a value whose `nodes` and `edges` fields
are each absent (JS `undefined`, falsy) or a well-formed collection. -/
inductive ParsedText where
  | malformed
  | parsed (nodes : Option (List Node)) (edges : Option (List Edge))
deriving DecidableEq

/-- `JSON.parse` applied to `JSON.stringify` output on plain data is the
identity, so parsing the text of an exported document yields a value whose
`nodes` and `edges` fields are present and equal to the document's (a JS
array is truthy even when empty). -/
def parseExported (d : ExportDoc) : ParsedText :=
  .parsed (some d.nodes) (some d.edges)

/-- `importFromJSON(json)`: on a parse failure or a missing/falsy `nodes` or
`edges` field the catch leaves state untouched and raises the alert
(returned boolean `true`); otherwise replaces both collections verbatim and
nulls the selection. -/
def importFromJSON (st : FlowState) (t : ParsedText) : FlowState × Bool :=
  match t with
  | .malformed => (st, true)
  | .parsed none _ => (st, true)
  | .parsed _ none => (st, true)
  | .parsed (some n) (some e) => ({ nodes := n, edges := e, selectedNode := none }, false)

/-! Helper lemmas. -/

lemma map_eq_self_of_forall {α : Type} {l : List α} {f : α → α}
    (h : ∀ a ∈ l, f a = a) : l.map f = l :=
  (List.map_congr_left h).trans (List.map_id l)

/-! Claim theorems. -/

/-- C10: before any operation, load, or import runs, the store's initial
state is not empty: exactly two nodes with ids `1`, `2` and labels
`Start Node`, `Process Node`, one edge `e1-2` from `1` to `2` that is
animated, and a null selection. -/
theorem initialState_spec :
    initialState.nodes.length = 2 ∧
    initialState.nodes.map (fun n => n.id) = ["1", "2"] ∧
    initialState.nodes.map (fun n => n.data.label) = ["Start Node", "Process Node"] ∧
    initialState.edges.length = 1 ∧
    initialState.edges = [{ id := "e1-2", source := "1", target := "2", animated := true }] ∧
    initialState.selectedNode = none := by
  refine ⟨rfl, rfl, rfl, rfl, rfl, rfl⟩

/-- C2: exporting and then importing the exported text reproduces the same
nodes and edges, clears the selection, and raises no alert. -/
theorem export_import_roundtrip (st : FlowState) (exportedAt : String) :
    (importFromJSON st (parseExported (exportToJSON st exportedAt))).1.nodes = st.nodes ∧
    (importFromJSON st (parseExported (exportToJSON st exportedAt))).1.edges = st.edges ∧
    (importFromJSON st (parseExported (exportToJSON st exportedAt))).1.selectedNode = none ∧
    (importFromJSON st (parseExported (exportToJSON st exportedAt))).2 = false :=
  ⟨rfl, rfl, rfl, rfl⟩

/-- C3: parse errors never escape the operation boundary and never change
state: importing unparseable text, or a parsed value whose `nodes` or
`edges` field is missing, returns the state unchanged with the alert
raised; loading a stored value that fails to parse returns the world
unchanged. -/
theorem parse_errors_contained :
    (∀ (st : FlowState) (t : ParsedText),
        (t = .malformed ∨ (∃ e, t = .parsed none e) ∨ (∃ n, t = .parsed n none)) →
        importFromJSON st t = (st, true)) ∧
    (∀ w : World, w.storage = some .malformed → loadFromLocalStorage w = w) := by
  constructor
  · rintro st t (rfl | ⟨e, rfl⟩ | ⟨n, rfl⟩)
    · rfl
    · cases e <;> rfl
    · cases n <;> rfl
  · intro w h
    unfold loadFromLocalStorage
    rw [h]

/-- C6: saving and then loading with no intervening mutation reproduces the
same nodes and edges and clears the selection; loading when nothing is
stored under the key changes nothing. -/
theorem save_load_roundtrip :
    (∀ w : World,
        (loadFromLocalStorage (saveToLocalStorage w)).flow.nodes = w.flow.nodes ∧
        (loadFromLocalStorage (saveToLocalStorage w)).flow.edges = w.flow.edges ∧
        (loadFromLocalStorage (saveToLocalStorage w)).flow.selectedNode = none) ∧
    (∀ w : World, w.storage = none → loadFromLocalStorage w = w) := by
  constructor
  · intro w
    exact ⟨rfl, rfl, rfl⟩
  · intro w h
    unfold loadFromLocalStorage
    rw [h]

/-- C8: one `addNode` call grows the node collection by exactly one,
appending at the end a node labelled `Node (previous count + 1)`, leaving
every pre-existing node, the edges and the selection unchanged; over any
sequence of calls the length grows by the number of calls. -/
theorem addNode_spec (st : FlowState) (now : Nat) (position : Pos) :
    (addNode st now position).nodes.length = st.nodes.length + 1 ∧
    (addNode st now position).nodes.take st.nodes.length = st.nodes ∧
    (∃ newN : Node, (addNode st now position).nodes = st.nodes ++ [newN] ∧
        newN.data.label = "Node " ++ decStr (st.nodes.length + 1)) ∧
    (addNode st now position).edges = st.edges ∧
    (addNode st now position).selectedNode = st.selectedNode ∧
    (∀ calls : List (Nat × Pos),
        (calls.foldl (fun s c => addNode s c.1 c.2) st).nodes.length
          = st.nodes.length + calls.length) := by
  refine ⟨by simp [addNode], ?_, ⟨_, rfl, rfl⟩, rfl, rfl, ?_⟩
  · exact List.take_left st.nodes _
  · intro calls
    induction calls generalizing st with
    | nil => simp
    | cons c cs ih =>
      have h := ih (addNode st c.1 c.2)
      simp only [List.foldl_cons, List.length_cons] at *
      rw [h]
      simp [addNode]
      omega

/-- C9: `toggleNodeVisibility(id)` flips exactly the `hidden` flag of the
matching node and changes nothing else: every node is either unchanged or
the same node with `hidden` negated, the edges and the selection snapshot
are untouched, and with no matching node the whole state is unchanged. -/
theorem toggleNodeVisibility_spec (st : FlowState) (nodeId : String) :
    List.Forall₂
      (fun n m => m = if n.id = nodeId then { n with hidden := !n.hidden } else n)
      st.nodes (toggleNodeVisibility st nodeId).nodes ∧
    (toggleNodeVisibility st nodeId).edges = st.edges ∧
    (toggleNodeVisibility st nodeId).selectedNode = st.selectedNode ∧
    ((∀ n ∈ st.nodes, n.id ≠ nodeId) → toggleNodeVisibility st nodeId = st) := by
  refine ⟨?_, rfl, rfl, ?_⟩
  · rw [toggleNodeVisibility]
    simp only [List.forall₂_map_right_iff]
    exact List.forall₂_same.mpr fun n _ => rfl
  · intro h
    have : st.nodes.map
        (fun n => if n.id = nodeId then { n with hidden := !n.hidden } else n) = st.nodes :=
      map_eq_self_of_forall fun n hn => if_neg (h n hn)
    simp [toggleNodeVisibility, this]

/-- C1: `deleteNode(id)` keeps the surviving nodes and edges in order
(sublists), a node survives iff its id differs from `id`, an edge survives
iff neither endpoint equals `id`, a missing id leaves the node collection
unchanged, and the selection is null afterwards exactly when it was null
before or the selected node's id equals `id`. -/
theorem deleteNode_spec (st : FlowState) (nodeId : String) :
    (deleteNode st nodeId).nodes.Sublist st.nodes ∧
    (∀ n ∈ st.nodes, (n ∈ (deleteNode st nodeId).nodes ↔ n.id ≠ nodeId)) ∧
    (deleteNode st nodeId).edges.Sublist st.edges ∧
    (∀ e ∈ st.edges,
        (e ∈ (deleteNode st nodeId).edges ↔ e.source ≠ nodeId ∧ e.target ≠ nodeId)) ∧
    ((∀ n ∈ st.nodes, n.id ≠ nodeId) → (deleteNode st nodeId).nodes = st.nodes) ∧
    ((deleteNode st nodeId).selectedNode = none ↔
        st.selectedNode = none ∨ ∃ s, st.selectedNode = some s ∧ s.id = nodeId) ∧
    (∀ s, st.selectedNode = some s → s.id ≠ nodeId →
        (deleteNode st nodeId).selectedNode = some s) := by
  refine ⟨List.filter_sublist _, ?_, List.filter_sublist _, ?_, ?_, ?_, ?_⟩
  · intro n hn
    simp [deleteNode, List.mem_filter, hn]
  · intro e he
    simp [deleteNode, List.mem_filter, he]
  · intro h
    exact List.filter_eq_self.mpr fun n hn => by simp [h n hn]
  · cases hsel : st.selectedNode with
    | none => simp [deleteNode, hsel]
    | some s =>
      by_cases hid : s.id = nodeId <;> simp [deleteNode, hsel, hid]
  · intro s hs hid
    simp [deleteNode, hs, hid]

/-- Concrete state for the C4 counterexample: the collection entry for id
`x` and the (stale) selection snapshot for `x` disagree before the call. -/
def stC4 : FlowState :=
  { nodes := [{ id := "x", position := { x := 0, y := 0 }, data := { label := "new" } }]
    edges := []
    selectedNode := some
      { id := "x", position := { x := 0, y := 0 }
        data := { label := "old", color := some "red" } } }

/-- The patch used in the C4 counterexample. -/
def pC4 : NodeDataPatch := { label := some "z" }

/-- C4 counterexample: after `updateNode` on the selected id, the collection
entry's data and the selection snapshot's data can disagree (the snapshot
was stale, and the merge overwrites only the patched keys). -/
theorem updateNode_agree_cex :
    (updateNode stC4 "x" pC4).nodes.head?.map (fun n => n.data) ≠
      (updateNode stC4 "x" pC4).selectedNode.map (fun n => n.data) := by
  decide

/-- C4 (amended): `updateNode(id, p)` merges `p` into every collection entry
whose id equals `id`; when the selection snapshot carries `id` the identical
merge is applied to the snapshot's own data, so entry and snapshot agree
afterwards provided the snapshot's data equalled the entry's data before the
call; a selection with a different id (or no selection) is untouched. -/
theorem updateNode_spec (st : FlowState) (nodeId : String) (p : NodeDataPatch) :
    List.Forall₂
      (fun n m => m = if n.id = nodeId then { n with data := n.data.merge p } else n)
      st.nodes (updateNode st nodeId p).nodes ∧
    (updateNode st nodeId p).edges = st.edges ∧
    (∀ s, st.selectedNode = some s → s.id = nodeId →
        (updateNode st nodeId p).selectedNode = some { s with data := s.data.merge p }) ∧
    (∀ s, st.selectedNode = some s → s.id ≠ nodeId →
        (updateNode st nodeId p).selectedNode = st.selectedNode) ∧
    (st.selectedNode = none → (updateNode st nodeId p).selectedNode = none) ∧
    (∀ s n, st.selectedNode = some s → s.id = nodeId → n ∈ st.nodes → n.data = s.data →
        ∀ m, (updateNode st nodeId p).selectedNode = some m → m.data = n.data.merge p) := by
  refine ⟨?_, rfl, ?_, ?_, ?_, ?_⟩
  · rw [updateNode]
    simp only [List.forall₂_map_right_iff]
    exact List.forall₂_same.mpr fun n _ => rfl
  · intro s hs hid
    simp [updateNode, hs, hid]
  · intro s hs hid
    simp [updateNode, hs, hid]
  · intro hs
    simp [updateNode, hs]
  · intro s n hs hid _hn hdata m hm
    have h3 : (updateNode st nodeId p).selectedNode
        = some { s with data := s.data.merge p } := by
      simp [updateNode, hs, hid]
    rw [h3] at hm
    have hms := Option.some.inj hm
    rw [← hms, hdata]

/-- Concrete state for the C5 counterexample: no node carries id `x`, but
the detached selection snapshot does. -/
def stC5 : FlowState :=
  { nodes := []
    edges := []
    selectedNode := some
      { id := "x", position := { x := 0, y := 0 }, data := { label := "a" } } }

/-- The patch used in the C5 counterexample. -/
def pC5 : NodeDataPatch := { label := some "b" }

/-- C5 counterexample: `updateNode` with an id that no node in the
collection carries still rewrites the selection snapshot when the snapshot
itself carries that id — it is not a no-op on the whole state. -/
theorem updateNode_missing_id_cex :
    (updateNode stC5 "x" pC5).selectedNode ≠ stC5.selectedNode := by
  decide

/-- C5 (amended): when no node in the collection has the given id,
`updateNode` leaves the node and edge collections unchanged and leaves the
selection unchanged unless the (detached) selection snapshot itself carries
that id, in which case the patch is still merged into the snapshot's data. -/
theorem updateNode_missing_id_spec (st : FlowState) (nodeId : String) (p : NodeDataPatch)
    (h : ∀ n ∈ st.nodes, n.id ≠ nodeId) :
    (updateNode st nodeId p).nodes = st.nodes ∧
    (updateNode st nodeId p).edges = st.edges ∧
    (∀ s, st.selectedNode = some s → s.id ≠ nodeId →
        (updateNode st nodeId p).selectedNode = st.selectedNode) ∧
    (st.selectedNode = none → (updateNode st nodeId p).selectedNode = none) ∧
    (∀ s, st.selectedNode = some s → s.id = nodeId →
        (updateNode st nodeId p).selectedNode = some { s with data := s.data.merge p }) := by
  refine ⟨?_, rfl, ?_, ?_, ?_⟩
  · exact map_eq_self_of_forall fun n hn => if_neg (h n hn)
  · intro s hs hid
    simp [updateNode, hs, hid]
  · intro hs
    simp [updateNode, hs]
  · intro s hs hid
    simp [updateNode, hs, hid]

/-- Witness for C5's amended theorem at a concrete input: in `stC5` no node
carries id `x`, and the node collection is indeed unchanged. -/
theorem updateNode_missing_id_spec_witness :
    (updateNode stC5 "x" pC5).nodes = stC5.nodes :=
  (updateNode_missing_id_spec stC5 "x" pC5 (by intro n hn; cases hn)).1

/-- Extracting the decimal reading back: digits of the rendered string. -/
def unDec (s : String) : Nat :=
  Nat.ofDigits 10 (s.data.reverse.map fun c => c.toNat - 48)

lemma decChar_toNat {d : Nat} (hd : d < 10) : (decChar d).toNat = 48 + d := by
  interval_cases d <;> decide

lemma decChar_ne_dash {d : Nat} (hd : d < 10) : decChar d ≠ '-' := by
  interval_cases d <;> decide

lemma unDec_decStr (n : Nat) : unDec (decStr n) = n := by
  rw [decStr]
  by_cases h : n = 0
  · subst h
    decide
  · rw [if_neg h, unDec]
    simp only [List.reverse_reverse, List.map_map]
    have hcong : ∀ d ∈ Nat.digits 10 n,
        ((fun c => c.toNat - 48) ∘ decChar) d = id d := by
      intro d hd
      have h10 := Nat.digits_lt_base (by norm_num) hd
      simp [Function.comp, decChar_toNat h10]
    rw [List.map_congr_left hcong, List.map_id, Nat.ofDigits_digits]

lemma decStr_injective : Function.Injective decStr := by
  intro a b h
  have h' := congrArg unDec h
  rwa [unDec_decStr, unDec_decStr] at h'

lemma decStr_no_dash (n : Nat) : '-' ∉ (decStr n).data := by
  rw [decStr]
  by_cases h : n = 0
  · subst h; decide
  · rw [if_neg h]
    intro hmem
    simp only [List.mem_reverse, List.mem_map] at hmem
    obtain ⟨d, hd, hdc⟩ := hmem
    exact decChar_ne_dash (Nat.digits_lt_base (by norm_num) hd) hdc

lemma dash_head_eq : ∀ (x : List Char) (y : List Char) (a b : List Char),
    '-' ∉ x → '-' ∉ y → x ++ '-' :: a = y ++ '-' :: b → x = y ∧ a = b := by
  intro x
  induction x with
  | nil =>
    intro y a b _ hy h
    cases y with
    | nil =>
      simp only [List.nil_append] at h
      exact ⟨rfl, (List.cons.inj h).2⟩
    | cons c ys =>
      simp only [List.nil_append, List.cons_append] at h
      have hc := (List.cons.inj h).1
      exact absurd (hc ▸ List.mem_cons_self c ys)
        (by rw [← hc] at hy; exact fun hm => hy (by simp [← hc]))
  | cons c xs ih =>
    intro y a b hx hy h
    cases y with
    | nil =>
      simp only [List.cons_append, List.nil_append] at h
      have hc := (List.cons.inj h).1
      exact absurd (by simp [hc]) hx
    | cons d ys =>
      simp only [List.cons_append] at h
      have hc := (List.cons.inj h).1
      have ht := (List.cons.inj h).2
      have hx' : '-' ∉ xs := fun hm => hx (List.mem_cons_of_mem c hm)
      have hy' : '-' ∉ ys := fun hm => hy (List.mem_cons_of_mem d hm)
      obtain ⟨h1, h2⟩ := ih ys a b hx' hy' ht
      exact ⟨by rw [hc, h1], h2⟩

lemma dash_suffix_eq {A B u v : List Char} (hu : '-' ∉ u) (hv : '-' ∉ v)
    (h : A ++ '-' :: u = B ++ '-' :: v) : u = v := by
  have hr := congrArg List.reverse h
  simp only [List.reverse_append, List.reverse_cons] at hr
  have hru : '-' ∉ u.reverse := by simpa using hu
  have hrv : '-' ∉ v.reverse := by simpa using hv
  have hr' : u.reverse ++ '-' :: A.reverse = v.reverse ++ '-' :: B.reverse := by
    simpa [List.append_assoc] using hr
  exact List.reverse_injective
    (dash_head_eq u.reverse v.reverse A.reverse B.reverse hru hrv hr').1

lemma mkBulkId_inj_right {t1 t2 i j : Nat} (h : mkBulkId t1 i = mkBulkId t2 j) :
    i = j := by
  have hd := congrArg String.data h
  rw [mkBulkId, mkBulkId] at hd
  simp only [String.data_append] at hd
  have h1 : ("bulk-node-".data ++ (decStr t1).data) ++ '-' :: (decStr i).data
      = ("bulk-node-".data ++ (decStr t2).data) ++ '-' :: (decStr j).data := by
    have hdash : ("-" : String).data = ['-'] := rfl
    simpa [hdash, List.append_assoc] using hd
  exact decStr_injective
    (String.ext (dash_suffix_eq (decStr_no_dash i) (decStr_no_dash j) h1))

lemma gridSize_bounds {count : Nat} (h : 1 ≤ count) :
    (gridSize count - 1) * (gridSize count - 1) < count ∧
    count ≤ gridSize count * gridSize count := by
  rw [gridSize]
  by_cases hs : Nat.sqrt count * Nat.sqrt count = count
  · rw [if_pos hs]
    have h1 : 0 < Nat.sqrt count := by
      rcases Nat.eq_zero_or_pos (Nat.sqrt count) with h0 | h0
      · rw [h0] at hs
        omega
      · exact h0
    obtain ⟨k, hk⟩ : ∃ k, Nat.sqrt count = k + 1 := ⟨Nat.sqrt count - 1, by omega⟩
    rw [hk] at hs ⊢
    simp only [Nat.add_sub_cancel]
    constructor
    · rw [← hs]
      exact Nat.mul_lt_mul'' (Nat.lt_succ_self k) (Nat.lt_succ_self k)
    · omega
  · rw [if_neg hs]
    have h1 : Nat.sqrt count * Nat.sqrt count ≤ count := Nat.sqrt_le count
    have h2 : count < (Nat.sqrt count + 1) * (Nat.sqrt count + 1) := by
      simpa [Nat.succ_eq_add_one] using Nat.lt_succ_sqrt count
    constructor
    · simpa using lt_of_le_of_ne h1 hs
    · omega

/-- C7: `generateBulkNodes(N)` for `N ≥ 1` appends exactly `N` nodes,
leaving the existing nodes (and the edges and selection) unchanged; the
`i`-th appended node sits at column `i % g`, row `i / g` of a grid with
spacing 200 plus a per-axis jitter in `[0, 50)`, where `g` is the ceiling
of the square root of `N` (characterised by `(g-1)² < N ≤ g²`); and the
`N` generated ids are pairwise distinct. -/
theorem generateBulkNodes_spec (st : FlowState) (count : Nat) (tfn : Nat → Nat)
    (jx jy : Nat → ℚ) (hcount : 1 ≤ count)
    (hjx : ∀ i, 0 ≤ jx i ∧ jx i < 50) (hjy : ∀ i, 0 ≤ jy i ∧ jy i < 50) :
    ∃ fresh : List Node,
      (generateBulkNodes st count tfn jx jy).nodes = st.nodes ++ fresh ∧
      fresh.length = count ∧
      (∀ i, ∀ hi : i < fresh.length,
        ∃ dx dy : ℚ, 0 ≤ dx ∧ dx < 50 ∧ 0 ≤ dy ∧ dy < 50 ∧
          (fresh.get ⟨i, hi⟩).position.x = (i % gridSize count : Nat) * 200 + dx ∧
          (fresh.get ⟨i, hi⟩).position.y = (i / gridSize count : Nat) * 200 + dy) ∧
      (gridSize count - 1) * (gridSize count - 1) < count ∧
      count ≤ gridSize count * gridSize count ∧
      (fresh.map fun n => n.id).Nodup ∧
      (generateBulkNodes st count tfn jx jy).edges = st.edges ∧
      (generateBulkNodes st count tfn jx jy).selectedNode = st.selectedNode := by
  refine ⟨(List.range count).map (bulkNode tfn jx jy (gridSize count)),
    rfl, by simp, ?_, (gridSize_bounds hcount).1, (gridSize_bounds hcount).2,
    ?_, rfl, rfl⟩
  · intro i hi
    refine ⟨jx i, jy i, (hjx i).1, (hjx i).2, (hjy i).1, (hjy i).2, ?_, ?_⟩
    · rw [List.get_map]
      simp [List.get_range, bulkNode]
    · rw [List.get_map]
      simp [List.get_range, bulkNode]
  · rw [List.map_map]
    exact List.Nodup.map (fun a b hab => mkBulkId_inj_right hab) (List.nodup_range count)

/-- Witness for C7 at a concrete input: five bulk nodes appended to the
initial state with constant clock 42 and jitters 7 and 9. -/
theorem generateBulkNodes_spec_witness :
    ∃ fresh : List Node,
      (generateBulkNodes initialState 5 (fun _ => 42) (fun _ => 7) (fun _ => 9)).nodes
        = initialState.nodes ++ fresh ∧
      fresh.length = 5 ∧
      (∀ i, ∀ hi : i < fresh.length,
        ∃ dx dy : ℚ, 0 ≤ dx ∧ dx < 50 ∧ 0 ≤ dy ∧ dy < 50 ∧
          (fresh.get ⟨i, hi⟩).position.x = (i % gridSize 5 : Nat) * 200 + dx ∧
          (fresh.get ⟨i, hi⟩).position.y = (i / gridSize 5 : Nat) * 200 + dy) ∧
      (gridSize 5 - 1) * (gridSize 5 - 1) < 5 ∧
      5 ≤ gridSize 5 * gridSize 5 ∧
      (fresh.map fun n => n.id).Nodup ∧
      (generateBulkNodes initialState 5 (fun _ => 42) (fun _ => 7) (fun _ => 9)).edges
        = initialState.edges ∧
      (generateBulkNodes initialState 5 (fun _ => 42) (fun _ => 7) (fun _ => 9)).selectedNode
        = initialState.selectedNode :=
  generateBulkNodes_spec initialState 5 (fun _ => 42) (fun _ => 7) (fun _ => 9)
    (by norm_num) (fun i => by norm_num) (fun i => by norm_num)
